import Mathlib

/-!
Shallow embedding of `tagsinput/tagsinput.py` (widget classes `TagsInputBase`,
`TagsInput`, `ColorsInput`, `NumbersInputBase`, `FloatsInput`, `IntsInput`)
together with the parts of the host library (traitlets) semantics that decide
how an assignment to the `value` trait behaves.

Modelling notes.

* Python values flowing into the `value` / `allowed_tags` / `min` / `max`
  traits are modelled by `PyVal`: strings, arbitrary-precision integers, and
  floats.  Python floats are modelled as rationals: the only operations the
  code performs on them are equality and order comparisons, which the rational
  image of every finite float answers exactly.  Non-finite floats (inf/nan),
  booleans and arbitrary objects are outside the modelled universe; no claim
  under consideration quantifies over them.

* Element traits.  Assigning a list to a `List(T)` trait first validates each
  element with `T.validate` in order, raising on the first failure, and only
  then runs the cross-validator registered for the trait
  (`TraitType._validate`: `self.validate` then `self._cross_validate`).
  - `List()` (on `TagsInputBase`) performs no element validation.
  - `List(Unicode())` (on `TagsInput`) accepts `str` values unchanged and
    rejects everything else.
  - `List(Color())` (on `ColorsInput`) accepts strings that are valid HTML
    colors (ipywidgets `Color` trait: a known color name, case-insensitive,
    or `#` followed by 3 or 6 hex digits) unchanged and rejects everything
    else.  The color-name table below carries the commonly used CSS names;
    the only fact about it any theorem depends on is that the empty string
    is not a valid color.
  - `List(CFloat())` (on `FloatsInput`) coerces with Python `float(x)`:
    ints become floats, floats pass through, strings are parsed as decimal
    literals (exponents / inf / nan / surrounding whitespace are outside the
    modelled universe), anything unparsable raises.
  - `List(CInt())` (on `IntsInput`) coerces with Python `int(x)`: ints pass
    through, floats are truncated toward zero, strings must be (optionally
    signed) digit strings — `int("2.5")` raises.

* Cross-validation dispatch.  traitlets registers AT MOST ONE cross-validator
  per trait name: `HasTraits._register_validator` executes
  `self._trait_validators[name] = handler`, overwriting any previous handler.
  Handlers are registered by each `ValidateHandler.instance_init`, and
  instance inits run in the order `MetaHasDescriptors.setup_class` collected
  them — `inspect.getmembers(cls)`, which sorts members alphabetically.  On
  `NumbersInputBase` (hence `FloatsInput` and `IntsInput`) both
  `_validate_numbers` and `_validate_value` carry `@validate('value')`;
  `"_validate_numbers" < "_validate_value"` alphabetically, so
  `TagsInputBase._validate_value` is registered last and is the ONLY
  cross-validator ever invoked for `value`, on every variant.
  `NumbersInputBase._validate_numbers` is defined (embedded below as
  `validate_numbers`) but never runs.

* Assignment (`TraitType.set`) stores the validated value only after
  validation returns; a raised `TraitError` propagates to the caller before
  the store, leaving the previous trait value in place.  `assignValue` mirrors
  exactly this: on error the widget is returned unchanged alongside the error.
-/

/-- Decidable equality for `Except`, so that concrete runs of the validators
can be checked by evaluation. -/
instance exceptDecEq {ε α : Type} [DecidableEq ε] [DecidableEq α] :
    DecidableEq (Except ε α)
  | .error e, .error f =>
    if h : e = f then .isTrue (by rw [h])
    else .isFalse (by intro c; cases c; exact h rfl)
  | .error _, .ok _ => .isFalse (by intro c; cases c)
  | .ok _, .error _ => .isFalse (by intro c; cases c)
  | .ok a, .ok b =>
    if h : a = b then .isTrue (by rw [h])
    else .isFalse (by intro c; cases c; exact h rfl)

/-- A Python value as it can appear in the traits of these widgets:
a string, an int, or a float (modelled as an exact rational). -/
inductive PyVal where
  | str (s : String)
  | int (n : Int)
  | float (q : ℚ)
deriving DecidableEq, Repr

/-- Python `==` on `PyVal`: strings compare by content, numbers compare
numerically across the int/float divide (`1 == 1.0` is `True` in Python),
and a string never equals a number. -/
def pyEq : PyVal → PyVal → Bool
  | .str a, .str b => a = b
  | .int a, .int b => a = b
  | .int a, .float b => (a : ℚ) = b
  | .float a, .int b => a = (b : ℚ)
  | .float a, .float b => a = b
  | _, _ => false

/-- Python `x in xs` for a list: some element of `xs` compares `==` to `x`. -/
def pyMem (x : PyVal) (xs : List PyVal) : Bool :=
  xs.any (fun e => pyEq x e)

/-- The `TraitError`s this program can raise, carrying the data the
corresponding message interpolates. -/
inductive TraitError where
  /-- `'The value of a TagsInput widget cannot contain blank strings'` -/
  | blankValue
  /-- `'Tag value {} is not allowed, allowed tags are {}'` -/
  | notAllowed (tag : PyVal) (allowed : List PyVal)
  /-- `'Tag value {} should be >= {}'` -/
  | belowMin (tag : ℚ) (lo : ℚ)
  /-- `'Tag value {} should be <= {}'` -/
  | aboveMax (tag : ℚ) (hi : ℚ)
  /-- element-trait validation failure (Unicode / Color / CFloat / CInt cast) -/
  | badElement (v : PyVal)
deriving DecidableEq, Repr

/-- Numeric value of a digit string, most significant digit first. -/
def natOfDigits (cs : List Char) : Nat :=
  cs.foldl (fun a c => 10 * a + (c.toNat - 48)) 0

/-- Python `int(s)` on a string: an optionally signed run of decimal digits;
anything else (including `"2.5"` and `""`) raises. -/
def parseInt? (s : String) : Option Int :=
  match s.data with
  | '-' :: rest =>
      if rest.all Char.isDigit && !rest.isEmpty then
        some (-(natOfDigits rest : Int))
      else none
  | '+' :: rest =>
      if rest.all Char.isDigit && !rest.isEmpty then
        some ((natOfDigits rest : Int))
      else none
  | cs =>
      if cs.all Char.isDigit && !cs.isEmpty then
        some ((natOfDigits cs : Int))
      else none

/-- Python `float(s)` on a string, restricted to optionally signed decimal
literals `[+-]?digits[.digits]` with at least one digit; `float("")` raises.
The value `i.f` is the exact rational `(i * 10^k + f) / 10^k` with `k` the
number of fractional digits. -/
def parseFloat? (s : String) : Option ℚ :=
  let core : List Char → Option ℚ := fun body =>
    let ip := body.takeWhile Char.isDigit
    let rest := body.dropWhile Char.isDigit
    match rest with
    | [] => if ip.isEmpty then none else some (mkRat (natOfDigits ip) 1)
    | '.' :: fp =>
        if fp.all Char.isDigit && !(ip.isEmpty && fp.isEmpty) then
          some (mkRat ((natOfDigits ip * 10 ^ fp.length + natOfDigits fp : Nat) : Int)
            (10 ^ fp.length))
        else none
    | _ => none
  match s.data with
  | '-' :: body => (core body).map (fun q => -q)
  | '+' :: body => core body
  | body => core body

/-- Truncation toward zero, the rounding of Python `int(float)`:
`int(2.7) = 2`, `int(-2.7) = -2`. -/
def ratTrunc (q : ℚ) : Int :=
  if q.num < 0 then -((q.num.natAbs / q.den : Nat) : Int)
  else ((q.num.natAbs / q.den : Nat) : Int)

/-- traitlets `CInt` cast, Python `int(x)`. -/
def cIntCast : PyVal → Except TraitError Int
  | .int n => .ok n
  | .float q => .ok (ratTrunc q)
  | .str s =>
      match parseInt? s with
      | some n => .ok n
      | none => .error (.badElement (.str s))

/-- traitlets `CFloat` cast, Python `float(x)`. -/
def cFloatCast : PyVal → Except TraitError ℚ
  | .int n => .ok ((n : ℚ))
  | .float q => .ok q
  | .str s =>
      match parseFloat? s with
      | some q => .ok q
      | none => .error (.badElement (.str s))

/-- traitlets `Unicode` element validation: a `str` passes unchanged,
anything else raises. -/
def unicodeCast : PyVal → Except TraitError PyVal
  | .str s => .ok (.str s)
  | v => .error (.badElement v)

/-- Common CSS color names accepted by the ipywidgets `Color` trait.  The
trait's full name table is longer; no theorem below depends on which names
are present, only on the empty string not being a valid color. -/
def colorNames : List String :=
  ["aqua", "black", "blue", "brown", "cyan", "fuchsia", "gray", "green",
   "lime", "magenta", "maroon", "navy", "olive", "orange", "pink", "purple",
   "red", "silver", "teal", "violet", "white", "yellow"]

/-- Hexadecimal digit, as in the `Color` trait's regular expression. -/
def isHexDigit (c : Char) : Bool :=
  c.isDigit || ('a' ≤ c && c ≤ 'f') || ('A' ≤ c && c ≤ 'F')

/-- ASCII lower-casing of one character (`str.lower` on the inputs the
color check compares). -/
def lowerChar (c : Char) : Char :=
  if 'A' ≤ c && c ≤ 'Z' then Char.ofNat (c.toNat + 32) else c

/-- ASCII lower-casing of a string. -/
def lowerStr (s : String) : String :=
  ⟨s.data.map lowerChar⟩

/-- ipywidgets `Color` validity: a known color name (case-insensitive) or
`#` followed by exactly 3 or 6 hex digits. -/
def isValidColor (s : String) : Bool :=
  colorNames.contains (lowerStr s) ||
  (match s.data with
   | '#' :: rest => rest.all isHexDigit && (rest.length == 3 || rest.length == 6)
   | _ => false)

/-- ipywidgets `Color` element validation: a valid color string passes
unchanged, anything else raises. -/
def colorCast : PyVal → Except TraitError PyVal
  | .str s => if isValidColor s then .ok (.str s) else .error (.badElement (.str s))
  | v => .error (.badElement v)

/-- The concrete widget classes of `tagsinput.py` whose `value` trait the
claims are about.  `base` is `TagsInputBase`, `strings` is `TagsInput`,
`colors` is `ColorsInput`, `floats` is `FloatsInput`, `ints` is `IntsInput`. -/
inductive Variant where
  | base
  | strings
  | colors
  | floats
  | ints
deriving DecidableEq, Repr

/-- Element validation performed by each variant's `value` trait:
`List()`, `List(Unicode())`, `List(Color())`, `List(CFloat())`,
`List(CInt())` respectively. -/
def castElem : Variant → PyVal → Except TraitError PyVal
  | .base, v => .ok v
  | .strings, v => unicodeCast v
  | .colors, v => colorCast v
  | .floats, v => (cFloatCast v).map PyVal.float
  | .ints, v => (cIntCast v).map PyVal.int

/-- Element validation of a whole proposed list: each element in order,
first failure raises (the `List` container trait's behaviour). -/
def castList (var : Variant) : List PyVal → Except TraitError (List PyVal)
  | [] => .ok []
  | v :: rest =>
      match castElem var v with
      | .error e => .error e
      | .ok u =>
          match castList var rest with
          | .error e => .error e
          | .ok us => .ok (u :: us)

/-- First proposed tag not contained in `allowed_tags` (Python `in` / `==`),
mirroring the `for tag_value in proposal['value']` loop. -/
def findDisallowed (allowed_tags : List PyVal) : List PyVal → Option PyVal
  | [] => none
  | t :: rest =>
      if pyMem t allowed_tags then findDisallowed allowed_tags rest
      else some t

/-- `TagsInputBase._validate_value`: reject if `'' in proposal['value']`;
accept anything if `allowed_tags` is empty; otherwise reject at the first
proposed tag not in `allowed_tags`; on success return the proposal
unchanged. -/
def validate_value (allowed_tags : List PyVal) (value : List PyVal) :
    Except TraitError (List PyVal) :=
  if value.any (fun v => pyEq (.str "") v) then
    .error .blankValue
  else if allowed_tags.length = 0 then
    .ok value
  else
    match findDisallowed allowed_tags value with
    | some t => .error (.notAllowed t allowed_tags)
    | none => .ok value

/-- Per-element body of `NumbersInputBase._validate_numbers`: check the
lower bound first, then the upper bound, each only when set. -/
def boundErr (lo hi : Option ℚ) (v : ℚ) : Option TraitError :=
  match lo with
  | some l =>
      if v < l then some (.belowMin v l)
      else
        match hi with
        | some h => if h < v then some (.aboveMax v h) else none
        | none => none
  | none =>
      match hi with
      | some h => if h < v then some (.aboveMax v h) else none
      | none => none

/-- The `for tag_value in proposal['value']` loop of `_validate_numbers`:
first offending element raises. -/
def numbersCheck (lo hi : Option ℚ) : List ℚ → Option TraitError
  | [] => none
  | v :: rest =>
      match boundErr lo hi v with
      | some e => some e
      | none => numbersCheck lo hi rest

/-- `NumbersInputBase._validate_numbers` as written in the source.  Because
traitlets keeps a single cross-validator per trait and
`TagsInputBase._validate_value` is registered after it (alphabetical
instance-init order), this function is never invoked on an assignment to
`value`; it is embedded to state what the source's range rule would do. -/
def validate_numbers (lo hi : Option ℚ) (value : List ℚ) :
    Except TraitError (List ℚ) :=
  match numbersCheck lo hi value with
  | some e => .error e
  | none => .ok value

/-- State of one widget instance: its variant tag and the traits the
validation rules read or write.  `min`/`max` exist only on the numeric
variants; they are carried here for all variants (unused elsewhere) to keep
a single state type. -/
structure Widget where
  variant : Variant
  value : List PyVal
  allowed_tags : List PyVal
  allow_duplicates : Bool
  tag_style : String
  format : String
  min : Option ℚ
  max : Option ℚ
deriving DecidableEq, Repr

/-- A freshly constructed widget of the given variant, with each trait at
its declared default: empty `value` and `allowed_tags`,
`allow_duplicates=True`, `tag_style=''`, `format` `'.1f'`/`'.3g'` on the
float/int variants, unset bounds. -/
def mkWidget (var : Variant) : Widget :=
  { variant := var
    value := []
    allowed_tags := []
    allow_duplicates := true
    tag_style := ""
    format := match var with
      | .floats => ".1f"
      | .ints => ".3g"
      | _ => ""
    min := none
    max := none }

/-- The cross-validator traitlets actually invokes on an assignment to
`value`.  For every variant this is `TagsInputBase._validate_value`: on the
numeric variants `_validate_numbers` is also declared with
`@validate('value')`, but `HasTraits._register_validator` keeps one handler
per trait name (`self._trait_validators[name] = handler`) and instance
initializers run in alphabetical member order, so `_validate_value`
(registered second) overwrites `_validate_numbers`. -/
def crossValidate (w : Widget) (proposal : List PyVal) :
    Except TraitError (List PyVal) :=
  validate_value w.allowed_tags proposal

/-- Assignment to the `value` trait (`TraitType.set` → `_validate`):
element validation by the variant's `List(...)` trait, then the registered
cross-validator; on success the validated list becomes the new `value`. -/
def setValue (w : Widget) (proposal : List PyVal) : Except TraitError Widget :=
  match castList w.variant proposal with
  | .error e => .error e
  | .ok q =>
      match crossValidate w q with
      | .error e => .error e
      | .ok v => .ok { w with value := v }

/-- Observable effect of the Python statement `widget.value = proposal`:
either the updated widget, or the unchanged widget together with the raised
`TraitError` (the store into `_trait_values` happens only after validation
returns, so a failure leaves the previous `value` in place). -/
def assignValue (w : Widget) (proposal : List PyVal) : Widget × Option TraitError :=
  match setValue w proposal with
  | .ok w' => (w', none)
  | .error e => (w, some e)

/-- Assignment to the `min` trait of `IntsInput`
(`CInt(default_value=None, allow_none=True)`): `None` clears the bound,
anything else goes through Python `int(x)`. -/
def setMinInts (w : Widget) (v : Option PyVal) : Except TraitError Widget :=
  match v with
  | none => .ok { w with min := none }
  | some x =>
      match cIntCast x with
      | .error e => .error e
      | .ok n => .ok { w with min := some ((n : ℚ)) }

/-- Assignment to the `min` trait of `NumbersInputBase` / `FloatsInput`
(`CFloat(default_value=None, allow_none=True)`): `None` clears the bound,
anything else goes through Python `float(x)`. -/
def setMinFloats (w : Widget) (v : Option PyVal) : Except TraitError Widget :=
  match v with
  | none => .ok { w with min := none }
  | some x =>
      match cFloatCast x with
      | .error e => .error e
      | .ok q => .ok { w with min := some q }

/-- Names of the synchronized traits declared on `TagsInputBase`. -/
def baseTraitNames : List String :=
  ["_model_module", "_model_module_version", "_view_module",
   "_view_module_version", "value", "allowed_tags", "allow_duplicates"]

/-- Traits `TagsInput` adds on top of the base. -/
def stringsExtraTraitNames : List String :=
  ["_model_name", "_view_name", "tag_style"]

/-- Names of the synchronized traits each widget class exposes (declared or
inherited).  `FloatsInput` and `IntsInput` extend `NumbersInputBase`, which
extends `TagsInput`, so they inherit `allowed_tags` and `tag_style`. -/
def traitNames : Variant → List String
  | .base => baseTraitNames
  | .strings => baseTraitNames ++ stringsExtraTraitNames
  | .colors => baseTraitNames ++ ["_model_name", "_view_name"]
  | .floats => baseTraitNames ++ stringsExtraTraitNames ++ ["min", "max", "format"]
  | .ints => baseTraitNames ++ stringsExtraTraitNames ++ ["min", "max", "format"]

/-! Helper lemmas about the embedded validators. -/

theorem pyEq_str_int (s : String) (n : Int) : pyEq (.str s) (.int n) = false := rfl

theorem pyEq_str_float (s : String) (q : ℚ) : pyEq (.str s) (.float q) = false := rfl

theorem pyEq_blank_iff (v : PyVal) : pyEq (.str "") v = true ↔ v = .str "" := by
  cases v <;> simp [pyEq, eq_comm]

theorem castList_base_eq (p : List PyVal) : castList .base p = .ok p := by
  induction p with
  | nil => rfl
  | cons v rest ih => simp [castList, castElem, ih]

theorem castElem_blank_ok (var : Variant) (u : PyVal)
    (h : castElem var (.str "") = .ok u) : u = .str "" := by
  cases var
  case base => simp [castElem] at h; exact h.symm
  case strings => simp [castElem, unicodeCast] at h; exact h.symm
  case colors =>
    have hc : castElem Variant.colors (.str "") = .error (.badElement (.str "")) := by decide
    rw [hc] at h; cases h
  case floats =>
    have hc : castElem Variant.floats (.str "") = .error (.badElement (.str "")) := by decide
    rw [hc] at h; cases h
  case ints =>
    have hc : castElem Variant.ints (.str "") = .error (.badElement (.str "")) := by decide
    rw [hc] at h; cases h

theorem castList_blank_mem (var : Variant) (p q : List PyVal)
    (hc : castList var p = .ok q) (h : PyVal.str "" ∈ p) : PyVal.str "" ∈ q := by
  induction p generalizing q with
  | nil => cases h
  | cons v rest ih =>
    unfold castList at hc
    cases hcv : castElem var v with
    | error e => rw [hcv] at hc; cases hc
    | ok u =>
      rw [hcv] at hc
      cases hcr : castList var rest with
      | error e => rw [hcr] at hc; cases hc
      | ok us =>
        rw [hcr] at hc
        have hq : q = u :: us := by cases hc; rfl
        subst hq
        rcases List.mem_cons.mp h with hv | hrest
        · have hu : u = PyVal.str "" := by
            apply castElem_blank_ok var u
            rw [hv]; exact hcv
          rw [hu]; exact List.mem_cons_self _ _
        · exact List.mem_cons_of_mem u (ih us hcr hrest)

theorem validate_value_ok_eq (a p q : List PyVal)
    (h : validate_value a p = .ok q) : q = p := by
  unfold validate_value at h
  split at h
  · cases h
  · split at h
    · cases h; rfl
    · split at h
      · cases h
      · cases h; rfl

theorem findDisallowed_eq_none (a p : List PyVal)
    (h : findDisallowed a p = none) : ∀ t ∈ p, pyMem t a = true := by
  induction p with
  | nil => intro t ht; cases ht
  | cons v rest ih =>
    intro t ht
    unfold findDisallowed at h
    split at h
    · rcases List.mem_cons.mp ht with h1 | h2
      · rename_i hcond; rw [h1]; exact hcond
      · exact ih h t h2
    · cases h

theorem findDisallowed_eq_some (a p : List PyVal) (t : PyVal)
    (h : findDisallowed a p = some t) : t ∈ p ∧ pyMem t a = false := by
  induction p with
  | nil => cases h
  | cons v rest ih =>
    unfold findDisallowed at h
    split at h
    · obtain ⟨h1, h2⟩ := ih h
      exact ⟨List.mem_cons_of_mem _ h1, h2⟩
    · rename_i hcond
      cases h
      exact ⟨List.mem_cons_self _ _, by simpa using hcond⟩

theorem castElem_floats_shape (v u : PyVal)
    (h : castElem .floats v = .ok u) : ∃ q, u = .float q := by
  unfold castElem at h
  cases hc : cFloatCast v with
  | error e => simp [hc, Except.map] at h
  | ok q => simp [hc, Except.map] at h; exact ⟨q, h.symm⟩

theorem castElem_ints_shape (v u : PyVal)
    (h : castElem .ints v = .ok u) : ∃ n, u = .int n := by
  unfold castElem at h
  cases hc : cIntCast v with
  | error e => simp [hc, Except.map] at h
  | ok n => simp [hc, Except.map] at h; exact ⟨n, h.symm⟩

theorem castElem_colors_eq (v : PyVal) : castElem .colors v = colorCast v := rfl

theorem castElem_strings_eq (v : PyVal) : castElem .strings v = unicodeCast v := rfl

theorem castElem_ok_idem (var : Variant) (v u : PyVal)
    (h : castElem var v = .ok u) : castElem var u = .ok u := by
  cases var
  case base => rfl
  case strings =>
    cases v with
    | str s => simp [castElem, unicodeCast] at h; rw [← h]; rfl
    | int n => simp [castElem, unicodeCast] at h
    | float q => simp [castElem, unicodeCast] at h
  case colors =>
    cases v with
    | str s =>
      rw [castElem_colors_eq] at h ⊢
      by_cases hval : isValidColor s = true
      · have hcol : colorCast (.str s) = .ok (.str s) := by
          unfold colorCast; simp [hval]
        rw [hcol] at h
        have hu : u = PyVal.str s := by cases h; rfl
        subst hu
        exact hcol
      · have hcol : colorCast (.str s) = .error (.badElement (.str s)) := by
          unfold colorCast; simp [hval]
        rw [hcol] at h; cases h
    | int n => simp [castElem, colorCast] at h
    | float q => simp [castElem, colorCast] at h
  case floats =>
    obtain ⟨q, hq⟩ := castElem_floats_shape v u h
    subst hq; rfl
  case ints =>
    obtain ⟨n, hn⟩ := castElem_ints_shape v u h
    subst hn; rfl

theorem castList_ok_idem (var : Variant) (p q : List PyVal)
    (h : castList var p = .ok q) : castList var q = .ok q := by
  induction p generalizing q with
  | nil =>
    have hq : q = [] := by
      unfold castList at h; cases h; rfl
    subst hq; rfl
  | cons v rest ih =>
    unfold castList at h
    cases hcv : castElem var v with
    | error e => rw [hcv] at h; cases h
    | ok u =>
      rw [hcv] at h
      cases hcr : castList var rest with
      | error e => rw [hcr] at h; cases h
      | ok us =>
        rw [hcr] at h
        have hq : q = u :: us := by cases h; rfl
        subst hq
        have h1 : castElem var u = .ok u := castElem_ok_idem var v u hcv
        have h2 : castList var us = .ok us := ih us hcr
        simp [castList, h1, h2]

theorem castElem_id_nonnum (var : Variant)
    (hvar : var = .base ∨ var = .strings ∨ var = .colors) (v u : PyVal)
    (h : castElem var v = .ok u) : u = v := by
  rcases hvar with h1 | h1 | h1 <;> subst h1
  · simp [castElem] at h; exact h.symm
  · cases v with
    | str s => simp [castElem, unicodeCast] at h; exact h.symm
    | int n => simp [castElem, unicodeCast] at h
    | float q => simp [castElem, unicodeCast] at h
  · cases v with
    | str s =>
      rw [castElem_colors_eq] at h
      by_cases hval : isValidColor s = true
      · have hcol : colorCast (.str s) = .ok (.str s) := by
          unfold colorCast; simp [hval]
        rw [hcol] at h; cases h; rfl
      · have hcol : colorCast (.str s) = .error (.badElement (.str s)) := by
          unfold colorCast; simp [hval]
        rw [hcol] at h; cases h
    | int n => simp [castElem, colorCast] at h
    | float q => simp [castElem, colorCast] at h

theorem castList_id_nonnum (var : Variant)
    (hvar : var = .base ∨ var = .strings ∨ var = .colors) (p q : List PyVal)
    (h : castList var p = .ok q) : q = p := by
  induction p generalizing q with
  | nil => unfold castList at h; cases h; rfl
  | cons v rest ih =>
    unfold castList at h
    cases hcv : castElem var v with
    | error e => rw [hcv] at h; cases h
    | ok u =>
      rw [hcv] at h
      cases hcr : castList var rest with
      | error e => rw [hcr] at h; cases h
      | ok us =>
        rw [hcr] at h
        have hq : q = u :: us := by cases h; rfl
        subst hq
        rw [castElem_id_nonnum var hvar v u hcv, ih us hcr]

theorem castList_ok_self (var : Variant) (p : List PyVal)
    (h : castList var p = .ok p) : ∀ t ∈ p, castElem var t = .ok t := by
  induction p with
  | nil => intro t ht; cases ht
  | cons v rest ih =>
    intro t ht
    unfold castList at h
    cases hcv : castElem var v with
    | error e => rw [hcv] at h; cases h
    | ok u =>
      rw [hcv] at h
      cases hcr : castList var rest with
      | error e => rw [hcr] at h; cases h
      | ok us =>
        rw [hcr] at h
        have huv : u = v ∧ us = rest := by
          have := h
          simp only [Except.ok.injEq, List.cons.injEq] at this
          exact this
        obtain ⟨hu, hus⟩ := huv
        rcases List.mem_cons.mp ht with h1 | h2
        · rw [h1, ← hu]; rw [← hu] at hcv; exact hcv
        · rw [hus] at hcr
          exact ih hcr t h2

theorem setValue_ok_inv (w : Widget) (p : List PyVal) (w' : Widget)
    (h : setValue w p = .ok w') :
    castList w.variant p = .ok w'.value ∧
    validate_value w.allowed_tags w'.value = .ok w'.value ∧
    w' = { w with value := w'.value } := by
  unfold setValue crossValidate at h
  split at h
  · cases h
  · rename_i q hc
    split at h
    · cases h
    · rename_i v hv
      have hw : w' = { w with value := v } := by cases h; rfl
      have hvq : v = q := validate_value_ok_eq _ _ _ hv
      subst hvq
      subst hw
      exact ⟨hc, hv, rfl⟩

theorem setValue_allow_dup_map (w : Widget) (p : List PyVal) (b : Bool) :
    setValue { w with allow_duplicates := b } p
      = (setValue w p).map (fun w' => { w' with allow_duplicates := b }) := by
  unfold setValue crossValidate
  cases hc : castList w.variant p with
  | error e => simp [hc, Except.map]
  | ok q =>
    cases hv : validate_value w.allowed_tags q with
    | error e => simp [hc, hv, Except.map]
    | ok v => simp [hc, hv, Except.map]

/-! Claim theorems. -/

/-- C1: for every widget variant and every proposed replacement list for
`value` that contains at least one element equal to the empty string, the
assignment raises a validation error and the widget — in particular its
previous `value` — is retained unchanged. -/
theorem c1_blank_always_rejected (w : Widget) (p : List PyVal)
    (h : PyVal.str "" ∈ p) :
    (assignValue w p).2.isSome = true ∧ (assignValue w p).1 = w := by
  have herr : ∃ e, setValue w p = .error e := by
    cases hc : castList w.variant p with
    | error e =>
      refine ⟨e, ?_⟩
      unfold setValue
      rw [hc]
    | ok q =>
      have hq : PyVal.str "" ∈ q := castList_blank_mem w.variant p q hc h
      have hany : (q.any fun v => pyEq (.str "") v) = true :=
        List.any_eq_true.mpr ⟨_, hq, by rfl⟩
      refine ⟨.blankValue, ?_⟩
      unfold setValue crossValidate validate_value
      simp [hc, hany]
  obtain ⟨e, he⟩ := herr
  unfold assignValue
  simp [he]

/-- C1 witness: the concrete proposal `["a", ""]` on a `TagsInput` is
rejected and the widget keeps its state. -/
theorem c1_blank_always_rejected_witness :
    PyVal.str "" ∈ [PyVal.str "a", PyVal.str ""] ∧
    ((assignValue (mkWidget .strings) [PyVal.str "a", PyVal.str ""]).2.isSome = true ∧
      (assignValue (mkWidget .strings) [PyVal.str "a", PyVal.str ""]).1 = mkWidget .strings) :=
  ⟨by decide,
    c1_blank_always_rejected (mkWidget .strings) [PyVal.str "a", PyVal.str ""] (by decide)⟩

/-- C2: on `TagsInputBase`, for every proposed list with no blank element:
with empty `allowed_tags` every such list is accepted and stored as-is; with
non-empty `allowed_tags` the assignment is rejected iff some proposed
element is not a member of `allowed_tags`. -/
theorem c2_allowlist_decides_acceptance (allowed p : List PyVal)
    (hb : PyVal.str "" ∉ p) :
    (allowed = [] →
      assignValue { mkWidget .base with allowed_tags := allowed } p
        = ({ mkWidget .base with allowed_tags := allowed, value := p }, none)) ∧
    (allowed ≠ [] →
      ((assignValue { mkWidget .base with allowed_tags := allowed } p).2.isSome = true
        ↔ ∃ t ∈ p, pyMem t allowed = false)) := by
  have hany : (p.any fun v => pyEq (.str "") v) = false := by
    cases hA : (p.any fun v => pyEq (.str "") v) with
    | false => rfl
    | true =>
      obtain ⟨x, hx, hpe⟩ := List.any_eq_true.mp hA
      exact absurd (((pyEq_blank_iff x).mp hpe) ▸ hx) hb
  constructor
  · intro hA0
    subst hA0
    unfold assignValue setValue crossValidate validate_value
    simp [castList_base_eq, hany, mkWidget]
  · intro hAne
    have hlen : ¬ (allowed.length = 0) := fun hl => hAne (List.length_eq_zero.mp hl)
    cases hfd : findDisallowed allowed p with
    | none =>
      have hsv : setValue { mkWidget .base with allowed_tags := allowed } p
          = .ok { mkWidget .base with allowed_tags := allowed, value := p } := by
        unfold setValue crossValidate validate_value
        simp [castList_base_eq, hany, hlen, hfd, mkWidget]
      simp only [assignValue, hsv, Option.isSome_none, Bool.false_eq_true, false_iff]
      rintro ⟨t, ht, hmem⟩
      have hall := findDisallowed_eq_none allowed p hfd t ht
      rw [hall] at hmem; cases hmem
    | some t =>
      have hsv : setValue { mkWidget .base with allowed_tags := allowed } p
          = .error (.notAllowed t allowed) := by
        unfold setValue crossValidate validate_value
        simp [castList_base_eq, hany, hlen, hfd, mkWidget]
      obtain ⟨ht, hmem⟩ := findDisallowed_eq_some allowed p t hfd
      simp only [assignValue, hsv, Option.isSome_some, true_iff]
      exact ⟨t, ht, hmem⟩

/-- C2 witness: with `allowed_tags = ["b"]` the non-blank proposal `["a"]`
is rejected, matching the existence of an element outside the allow-list. -/
theorem c2_allowlist_decides_acceptance_witness :
    PyVal.str "" ∉ [PyVal.str "a"] ∧
    (([PyVal.str "b"] : List PyVal) ≠ [] →
      ((assignValue { mkWidget .base with allowed_tags := [PyVal.str "b"] }
          [PyVal.str "a"]).2.isSome = true
        ↔ ∃ t ∈ [PyVal.str "a"], pyMem t [PyVal.str "b"] = false)) :=
  ⟨by decide, (c2_allowlist_decides_acceptance [PyVal.str "b"] [PyVal.str "a"] (by decide)).2⟩

/-- C3 (code bug): on `IntsInput` with `min=0, max=10` the proposal
`[5, 11]` is ACCEPTED and stored — the range rule is never invoked, because
traitlets registers a single cross-validator per trait and
`_validate_value` overwrites `_validate_numbers` — while the
`_validate_numbers` body as written in the source would reject it with the
`should be <= 10` error.  The in-range proposal `[5, 10, 0]` of the spec's
Scenario 4 is accepted, as both the claim and the code agree. -/
theorem c3_range_bounds_not_enforced :
    (assignValue { mkWidget .ints with min := some 0, max := some 10 }
        [PyVal.int 5, PyVal.int 11]
      = ({ mkWidget .ints with min := some 0, max := some 10, value := [PyVal.int 5, PyVal.int 11] }, none)) ∧
    validate_numbers (some 0) (some 10) [5, 11] = .error (.aboveMax 11 10) ∧
    (assignValue { mkWidget .ints with min := some 0, max := some 10 }
        [PyVal.int 5, PyVal.int 10, PyVal.int 0]
      = ({ mkWidget .ints with min := some 0, max := some 10, value := [PyVal.int 5, PyVal.int 10, PyVal.int 0] }, none)) := by
  decide

/-- C4: every failed assignment to `value` is atomic — whenever a
validation error is raised, the widget (hence its previous `value`) is
returned unchanged, and the error is handed to the caller synchronously as
the second component. -/
theorem c4_failed_assignment_atomic (w : Widget) (p : List PyVal)
    (h : (assignValue w p).2.isSome = true) :
    (assignValue w p).1 = w := by
  unfold assignValue at h ⊢
  cases hs : setValue w p with
  | error e => simp [hs]
  | ok w' => rw [hs] at h; simp at h

/-- C4 witness: a `TagsInput` rejects `[5]` (element-trait failure) and is
unchanged by the attempt. -/
theorem c4_failed_assignment_atomic_witness :
    (assignValue (mkWidget .strings) [PyVal.int 5]).2.isSome = true ∧
    (assignValue (mkWidget .strings) [PyVal.int 5]).1 = mkWidget .strings :=
  ⟨by decide, c4_failed_assignment_atomic _ _ (by decide)⟩

/-- C5 counterexample: on `IntsInput` the proposal `[2.7]` is accepted, but
the stored `value` is the truncated `[2]`, not the proposed list — the
`CInt` element trait coerces, so "stored equals proposed exactly, with no
coercion" fails. -/
theorem c5_exact_storage_counterexample :
    (assignValue (mkWidget .ints) [PyVal.float (mkRat 27 10)]).2 = none ∧
    (assignValue (mkWidget .ints) [PyVal.float (mkRat 27 10)]).1.value = [PyVal.int 2] ∧
    [PyVal.int 2] ≠ [PyVal.float (mkRat 27 10)] := by
  decide

/-- C5 (amended): whenever an assignment is accepted, the stored `value` is
exactly the element-wise coerced proposal (same order and multiplicity, no
deduplication), and only `value` changes; for the base, string and color
variants the element coercion is the identity, so the stored list equals
the proposed list exactly. -/
theorem c5_storage_equals_cast_proposal (w : Widget) (p : List PyVal) (w' : Widget)
    (h : setValue w p = .ok w') :
    castList w.variant p = .ok w'.value ∧
    ((w.variant = .base ∨ w.variant = .strings ∨ w.variant = .colors) → w'.value = p) ∧
    w' = { w with value := w'.value } := by
  obtain ⟨h1, _, h3⟩ := setValue_ok_inv w p w' h
  exact ⟨h1, fun hv => castList_id_nonnum w.variant hv p w'.value h1, h3⟩

/-- C5 witness: a concrete accepted string assignment stores the proposal
unchanged. -/
theorem c5_storage_equals_cast_proposal_witness :
    castList (mkWidget .strings).variant [PyVal.str "x"]
      = .ok ({ mkWidget .strings with value := [PyVal.str "x"] }).value ∧
    (((mkWidget .strings).variant = .base ∨ (mkWidget .strings).variant = .strings ∨
        (mkWidget .strings).variant = .colors) →
      ({ mkWidget .strings with value := [PyVal.str "x"] }).value = [PyVal.str "x"]) ∧
    ({ mkWidget .strings with value := [PyVal.str "x"] } : Widget)
      = { mkWidget .strings with
          value := ({ mkWidget .strings with value := [PyVal.str "x"] }).value } :=
  c5_storage_equals_cast_proposal (mkWidget .strings) [PyVal.str "x"]
    { mkWidget .strings with value := [PyVal.str "x"] } (by decide)

/-- C6 (code bug): the numeric range validator does not run at all.  On
`FloatsInput` with `min=0.0` the proposal `[-0.1]` is accepted (Scenario 5
of the spec expects rejection) even though the `_validate_numbers` body as
written would reject it; the base validator does run and reports its
allow-list error on a numeric widget whose proposal violates both rules. -/
theorem c6_numeric_validator_unreachable :
    (assignValue { mkWidget .floats with min := some 0 } [PyVal.float (mkRat (-1) 10)]).2 = none ∧
    validate_numbers (some 0) none [mkRat (-1) 10]
      = .error (.belowMin (mkRat (-1) 10) 0) ∧
    (assignValue { mkWidget .ints with allowed_tags := [PyVal.int 1], min := some 0, max := some 10 }
        [PyVal.int 11]).2 = some (.notAllowed (.int 11) [PyVal.int 1]) := by
  decide

/-- C7 counterexample: `IntsInput` does not reject non-integer-valued
inputs — assigning `min = 1.5` succeeds and stores `1`, and the element
`2.7` is accepted and stored as `2`. -/
theorem c7_ints_reject_counterexample :
    setMinInts (mkWidget .ints) (some (PyVal.float (mkRat 3 2)))
      = .ok { mkWidget .ints with min := some 1 } ∧
    assignValue (mkWidget .ints) [PyVal.float (mkRat 27 10)]
      = ({ mkWidget .ints with value := [PyVal.int 2] }, none) := by
  decide

/-- C7 (amended): `IntsInput` COERCES non-integer numeric bounds and
elements by truncation toward zero (its `CInt` traits), rejecting only
values `int()` cannot cast, such as the decimal string "2.5"; `FloatsInput`
accepts fractional bounds and elements unchanged. -/
theorem c7_coercion_amended (q : ℚ) :
    setMinInts (mkWidget .ints) (some (PyVal.float q))
      = .ok { mkWidget .ints with min := some ((ratTrunc q : ℤ) : ℚ) } ∧
    setMinFloats (mkWidget .floats) (some (PyVal.float q))
      = .ok { mkWidget .floats with min := some q } ∧
    setValue (mkWidget .floats) [PyVal.float q]
      = .ok { mkWidget .floats with value := [PyVal.float q] } ∧
    setMinInts (mkWidget .ints) (some (PyVal.str "2.5"))
      = .error (.badElement (.str "2.5")) := by
  exact ⟨rfl, rfl, rfl, by decide⟩

/-- C8: `allow_duplicates` never influences validation — two assignments
that differ only in the flag produce the same accept/reject outcome and the
same stored `value` — and no deduplication happens: `["a","b","a"]` under
allow-list `["a","b"]` is accepted and stored with its duplicate. -/
theorem c8_allow_duplicates_no_influence (w : Widget) (p : List PyVal) (b₁ b₂ : Bool) :
    ((assignValue { w with allow_duplicates := b₁ } p).2
        = (assignValue { w with allow_duplicates := b₂ } p).2 ∧
      (assignValue { w with allow_duplicates := b₁ } p).1.value
        = (assignValue { w with allow_duplicates := b₂ } p).1.value) ∧
    assignValue { mkWidget .strings with allowed_tags := [PyVal.str "a", PyVal.str "b"] }
        [PyVal.str "a", PyVal.str "b", PyVal.str "a"]
      = ({ mkWidget .strings with allowed_tags := [PyVal.str "a", PyVal.str "b"], value := [PyVal.str "a", PyVal.str "b", PyVal.str "a"] }, none) := by
  refine ⟨?_, by decide⟩
  unfold assignValue
  rw [setValue_allow_dup_map w p b₁, setValue_allow_dup_map w p b₂]
  cases hs : setValue w p with
  | error e => simp [Except.map]
  | ok w' => simp [Except.map]

/-- C9 counterexample: the current `value` `["a"]` was accepted (under the
empty allow-list), but after `allowed_tags` is mutated to `["b"]` —
assignments to `allowed_tags` are themselves unvalidated — re-assigning the
currently-held `value` to itself is rejected, so re-assignment does not
ALWAYS succeed under the widget's current constraints. -/
theorem c9_reassign_counterexample :
    (assignValue (mkWidget .strings) [PyVal.str "a"]).2 = none ∧
    (assignValue
        { (assignValue (mkWidget .strings) [PyVal.str "a"]).1 with allowed_tags := [PyVal.str "b"] }
        ({ (assignValue (mkWidget .strings) [PyVal.str "a"]).1 with allowed_tags := [PyVal.str "b"] }).value).2
      = some (.notAllowed (.str "a") [PyVal.str "b"]) := by
  decide

/-- C9 (amended): if the validation-relevant constraints are unchanged
since the value was accepted, re-assignment of the current `value` to
itself succeeds and leaves the widget in the same state: any successful
assignment yields a state that re-accepts its own `value`. -/
theorem c9_reassign_idempotent_amended (w : Widget) (p : List PyVal) (w' : Widget)
    (h : setValue w p = .ok w') : setValue w' w'.value = .ok w' := by
  obtain ⟨h1, h2, h3⟩ := setValue_ok_inv w p w' h
  have hvar : w'.variant = w.variant := by rw [h3]
  have hat : w'.allowed_tags = w.allowed_tags := by rw [h3]
  have hcast : castList w'.variant w'.value = .ok w'.value := by
    rw [hvar]
    exact castList_ok_idem w.variant p w'.value h1
  have hval : validate_value w'.allowed_tags w'.value = .ok w'.value := by
    rw [hat]
    exact h2
  unfold setValue crossValidate
  simp only [hcast, hval]

/-- C9 witness: after accepting `["a"]`, re-assigning it succeeds with the
same resulting state. -/
theorem c9_reassign_idempotent_amended_witness :
    setValue { mkWidget .strings with value := [PyVal.str "a"] }
        ({ mkWidget .strings with value := [PyVal.str "a"] } : Widget).value
      = .ok { mkWidget .strings with value := [PyVal.str "a"] } :=
  c9_reassign_idempotent_amended (mkWidget .strings) [PyVal.str "a"]
    { mkWidget .strings with value := [PyVal.str "a"] } (by decide)

/-- C10: `FloatsInput` and `IntsInput` inherit from `TagsInput`, exposing
the `allowed_tags` and `tag_style` traits, and the base blank/allow-list
validation applies to their `value` assignments: with a non-empty
`allowed_tags`, a proposal whose elements pass the numeric element trait
unchanged and include a non-member is rejected with the base allow-list
error. -/
theorem c10_numeric_variants_inherit_base (w : Widget) (p : List PyVal)
    (hvar : w.variant = .floats ∨ w.variant = .ints)
    (hcast : castList w.variant p = .ok p)
    (hne : w.allowed_tags ≠ [])
    (hex : ∃ t ∈ p, pyMem t w.allowed_tags = false) :
    ("allowed_tags" ∈ traitNames .floats ∧ "allowed_tags" ∈ traitNames .ints ∧
      "tag_style" ∈ traitNames .floats ∧ "tag_style" ∈ traitNames .ints) ∧
    ∃ t, setValue w p = .error (.notAllowed t w.allowed_tags) := by
  refine ⟨by decide, ?_⟩
  have hany : (p.any fun v => pyEq (.str "") v) = false := by
    cases hA : (p.any fun v => pyEq (.str "") v) with
    | false => rfl
    | true =>
      obtain ⟨x, hx, hpe⟩ := List.any_eq_true.mp hA
      have hxs : x = .str "" := (pyEq_blank_iff x).mp hpe
      have hself := castList_ok_self w.variant p hcast x hx
      rcases hvar with hv | hv
      · rw [hv] at hself
        obtain ⟨qq, hq⟩ := castElem_floats_shape x x hself
        rw [hxs] at hq; cases hq
      · rw [hv] at hself
        obtain ⟨n, hn⟩ := castElem_ints_shape x x hself
        rw [hxs] at hn; cases hn
  have hlen : ¬ (w.allowed_tags.length = 0) := fun hl => hne (List.length_eq_zero.mp hl)
  cases hfd : findDisallowed w.allowed_tags p with
  | none =>
    obtain ⟨t, ht, hmem⟩ := hex
    have hall := findDisallowed_eq_none w.allowed_tags p hfd t ht
    rw [hall] at hmem; cases hmem
  | some t =>
    refine ⟨t, ?_⟩
    unfold setValue crossValidate validate_value
    simp [hcast, hany, hlen, hfd]

/-- C10 witness: `IntsInput` with `allowed_tags = [1, 2]` rejects the
proposal `[3]` with the base allow-list error. -/
theorem c10_numeric_variants_inherit_base_witness :
    ("allowed_tags" ∈ traitNames .floats ∧ "allowed_tags" ∈ traitNames .ints ∧
      "tag_style" ∈ traitNames .floats ∧ "tag_style" ∈ traitNames .ints) ∧
    ∃ t, setValue { mkWidget .ints with allowed_tags := [PyVal.int 1, PyVal.int 2] } [PyVal.int 3]
      = .error (.notAllowed t
          ({ mkWidget .ints with allowed_tags := [PyVal.int 1, PyVal.int 2] } : Widget).allowed_tags) :=
  c10_numeric_variants_inherit_base
    { mkWidget .ints with allowed_tags := [PyVal.int 1, PyVal.int 2] } [PyVal.int 3]
    (Or.inr (by decide)) (by decide) (by decide) ⟨PyVal.int 3, by decide, by decide⟩
